import Mathlib

/-!
Verification of the secret-synchronization core of the 1password-secrets
command-line utility (source file onepassword_secrets.py), as a shallow
embedding in Lean 4.

Pure decision logic (item lookup, env parsing checks, secret-set diffing,
the git-remote regular expression) is translated directly.  Interaction
with the external collaborators (the 1Password CLI, the Fly.io GraphQL
endpoint, interactive confirmation prompts) is made explicit: the results
the collaborators would return and the answers the user would give are
inputs of the embedded functions, and the side-effecting calls the code
performs are recorded in an action trace that the theorems inspect.
-/

/-! ## Shared error model

The source signals every user-facing failure through raise_error, which
prints the message and raises UserError; main catches UserError and exits
with status 1.  We embed fallible operations in the Except monad, with the
raise_error message as the error value. -/

deriving instance DecidableEq for Except

/-- Field id under which 1Password stores the secure note's text
(constant ONE_PASSWORD_NOTES_CONTENT_FIELD_NAME in the source). -/
def ONE_PASSWORD_NOTES_CONTENT_FIELD_NAME : String := "notesPlain"

/-- Split a character list on a separator character, keeping empty
pieces; the semantics of splitting a Python string on a one-character
separator (an empty input yields one empty piece). -/
def splitOnChar (c : Char) : List Char → List (List Char)
  | [] => [[]]
  | a :: rest =>
    if a = c then [] :: splitOnChar c rest
    else
      match splitOnChar c rest with
      | [] => [[a]]
      | grp :: grps => (a :: grp) :: grps

/-! ## ItemLocator: get_1password_env_file_item_id (lines 67-96)

The 1Password CLI's item list (an external collaborator) is an input: a
list of secure-note items, each with an id and a title. -/

/-- A 1Password secure-note item as returned by op item list: the two
fields the lookup logic reads. -/
structure OPItem where
  id : String
  title : String
deriving DecidableEq, Repr

/-- Error outcomes of the item lookup.  The source raises UserError in
both cases; the two constructors record which of the two raise_error
call sites fired (the not-found message at line 82 and the ambiguity
message at line 90). -/
inductive LocateError where
  | notFoundError (titleSubstring : String)
  | ambiguousMatchError (count : Nat)
deriving DecidableEq, Repr

/-- The words of a title, split on single spaces (Python:
title.split(" "), which keeps empty words between consecutive spaces). -/
def titleWords (title : String) : List String :=
  (splitOnChar ' ' title.data).map (fun w => String.mk w)

/-- Line 79: the items whose title, split on single spaces, contains the
searched token as a whole word (Python: title_substring in
item["title"].split(" ")). -/
def matchingItems (titleSubstring : String) (secureNotes : List OPItem) : List OPItem :=
  secureNotes.filter (fun item => (titleWords item.title).contains titleSubstring)

/-- Lines 67-96: get_1password_env_file_item_id.  Filters the secure notes
by whole-word title match, then requires exactly one match: zero matches
raise the not-found error, two or more raise the ambiguity error, exactly
one returns that item's id. -/
def get_1password_env_file_item_id (titleSubstring : String) (secureNotes : List OPItem) :
    Except LocateError String :=
  let item_ids := (matchingItems titleSubstring secureNotes).map (fun item => item.id)
  if item_ids.length = 0 then
    .error (.notFoundError titleSubstring)
  else if item_ids.length > 1 then
    .error (.ambiguousMatchError item_ids.length)
  else
    .ok (item_ids.headD "")

/-! ## EnvBlockCodec, decoding side: get_secrets_from_envs (lines 440-452)

The source first runs the third-party dotenv parser (dotenv_values), which
yields an ordered mapping from keys to optional values (None when a line
has a key but no value), and then applies its own null-value check.  The
check, which is this repository's code, operates on the parser's output,
so it is embedded as a function of that output: an association list from
keys to optional values. -/

/-- Line 443: the keys of the parsed mapping whose value is null. -/
def keys_with_null_values (secrets : List (String × Option String)) : List String :=
  (secrets.filter (fun kv => kv.2.isNone)).map (fun kv => kv.1)

/-- Lines 446-450: the exact error message listing every offending key. -/
def parse_error_message (keys : List String) : String :=
  "Failed to parse env file, values for the following keys are null: " ++
    String.intercalate ", " keys

/-- Lines 440-452: get_secrets_from_envs applied to the dotenv parse
result.  Fails with the message listing all null-valued keys when at
least one value is null; otherwise returns the mapping (with the values,
all known present, unwrapped). -/
def get_secrets_from_envs (secrets : List (String × Option String)) :
    Except String (List (String × String)) :=
  if (keys_with_null_values secrets).length > 0 then
    .error (parse_error_message (keys_with_null_values secrets))
  else
    .ok (secrets.filterMap (fun kv => kv.2.map (fun v => (kv.1, v))))

/-! ## SecretSetDiff: the diff computed by _prompt_secret_diff (lines 301-310)

The source works on Python dicts; here a parsed secret set is an
association list (insertion-ordered, keys unique in practice) and value
lookup is List.lookup.  The three key collections are defined exactly as
in the source: set differences of the key sets, and the keys common to
both whose values differ. -/

/-- The key list of a parsed secret set. -/
def secretKeys (s : List (String × String)) : List String :=
  s.map (fun kv => kv.1)

/-- Line 304: deleted_keys = previous_keys.difference(new_keys). -/
def deletedKeysOf (previous next : List (String × String)) : List String :=
  (secretKeys previous).filter (fun k => !(secretKeys next).contains k)

/-- Line 305: added_keys = new_keys.difference(previous_keys). -/
def addedKeysOf (previous next : List (String × String)) : List String :=
  (secretKeys next).filter (fun k => !(secretKeys previous).contains k)

/-- Lines 306-310: keys in the intersection whose values differ by exact
string equality. -/
def modifiedKeysOf (previous next : List (String × String)) : List String :=
  ((secretKeys previous).filter (fun k => (secretKeys next).contains k)).filter
    (fun k => !(List.lookup k previous == List.lookup k next))

/-! ## ReconciliationEngine, vault side: _prompt_secret_diff and
update_1password_secrets (lines 297-343 and 393-411)

The confirmation prompt answer is an input: inquirer returns None when
the prompt is interrupted (upon which _boolean_prompt itself raises
"Aborted by user", line 159), and a boolean otherwise.  The calls the
code performs are recorded as VaultAction values. -/

/-- Observable steps of the vault-side flow. -/
inductive VaultAction where
  | promptProceedAnyway
  | showDiff (deleted added modified : List String)
  | promptApplyChanges
  | editItem (itemId : String)
deriving DecidableEq, Repr

/-- Lines 297-343: _prompt_secret_diff.  Decodes both raw texts (here:
both dotenv parse results), computes the diff, and either asks "Proceed
anyway" (empty diff) or shows the change summary and asks "Apply these
changes".  A declined or interrupted prompt raises "Aborted by user".
Returns the performed actions together with the outcome. -/
def prompt_secret_diff (previousParsed newParsed : List (String × Option String))
    (answer : Option Bool) : List VaultAction × Except String Unit :=
  match get_secrets_from_envs previousParsed with
  | .error e => ([], .error e)
  | .ok previous =>
    match get_secrets_from_envs newParsed with
    | .error e => ([], .error e)
    | .ok next =>
      let deleted := deletedKeysOf previous next
      let added := addedKeysOf previous next
      let modified := modifiedKeysOf previous next
      if deleted.length = 0 ∧ added.length = 0 ∧ modified.length = 0 then
        match answer with
        | some true => ([.promptProceedAnyway], .ok ())
        | _ => ([.promptProceedAnyway], .error "Aborted by user")
      else
        match answer with
        | some true => ([.showDiff deleted added modified, .promptApplyChanges], .ok ())
        | _ => ([.showDiff deleted added modified, .promptApplyChanges],
                .error "Aborted by user")

/-- Lines 393-411: update_1password_secrets with both texts supplied
(previous_raw_secrets not None).  Runs the diff prompt; only when it
succeeds does the op item edit call writing the new content happen. -/
def update_1password_secrets (itemId : String)
    (newParsed previousParsed : List (String × Option String))
    (answer : Option Bool) : List VaultAction × Except String Unit :=
  let p := prompt_secret_diff previousParsed newParsed answer
  match p.2 with
  | .error e => (p.1, .error e)
  | .ok _ => (p.1 ++ [.editItem itemId], .ok ())

/-- Decidable test used in theorem statements: both texts decode and the
diff between them is empty (the condition of line 312). -/
def emptyDiffInputs (previousParsed newParsed : List (String × Option String)) : Bool :=
  match get_secrets_from_envs previousParsed, get_secrets_from_envs newParsed with
  | .ok previous, .ok next =>
      (deletedKeysOf previous next).length == 0 &&
      (addedKeysOf previous next).length == 0 &&
      (modifiedKeysOf previous next).length == 0
  | _, _ => false

/-! ## ReconciliationEngine, remote side: update_fly_secrets (lines 182-276)

External inputs: the names currently stored on the remote, the release
field of the setSecrets response, and the user's answers to the deletion
and deploy prompts.  Per the interface the source relies on (it queries
the secret names after the replace-all mutation and still expects the
stale names to be there, matching the specified scenario), the replace-all
mutation upserts the pushed keys and leaves other names in place; the
unsetSecrets mutation removes exactly the named keys. -/

/-- Observable steps of the remote-side flow, in the order performed. -/
inductive FlyAction where
  | setSecretsReplaceAll (secrets : List (String × String))
  | querySecretNames
  | promptDeleteConfirm (names : List String)
  | unsetSecrets (names : List String)
  | printRelease (version : String)
  | promptDeploy
  | deploySecrets
deriving DecidableEq, Repr

/-- External state and prompt answers consumed by update_fly_secrets. -/
structure FlyEnv where
  /-- Secret names on the remote before the call. -/
  remoteNames : List String
  /-- Release carried by the setSecrets response (None when the mutation
  triggered no release). -/
  setSecretsRelease : Option String
  /-- Answer to the deletion prompt (None models an interrupted prompt). -/
  confirmDelete : Option Bool
  /-- Answer to the "Deploy secrets now" prompt. -/
  confirmDeploy : Option Bool
deriving DecidableEq, Repr

/-- Line 230: set(secrets.keys()). -/
def envFileKeys (secrets : List (String × String)) : List String :=
  secrets.map (fun kv => kv.1)

/-- Secret names on the remote after the replace-all mutation: the pushed
keys are upserted, pre-existing names remain. -/
def namesAfterReplaceAll (secrets : List (String × String)) (remoteNames : List String) :
    List String :=
  remoteNames ++ (envFileKeys secrets).filter (fun k => !remoteNames.contains k)

/-- Line 233: the names the follow-up query reports that are absent from
the pushed env file. -/
def flyOnlyNames (secrets : List (String × String)) (remoteNames : List String) : List String :=
  (namesAfterReplaceAll secrets remoteNames).filter (fun k => !(envFileKeys secrets).contains k)

/-- Lines 265-276: the release handling after the mutations.  A release on
the last mutation response is announced; otherwise the user is offered an
explicit deploy (an interrupted prompt raises "Aborted by user").  Returns
the actions, and on success the final remote names. -/
def release_step (release : Option String) (confirmDeploy : Option Bool)
    (finalNames : List String) : List FlyAction × Except String (List String) :=
  match release with
  | some v => ([.printRelease v], .ok finalNames)
  | none =>
    match confirmDeploy with
    | none => ([.promptDeploy], .error "Aborted by user")
    | some true => ([.promptDeploy, .deploySecrets], .ok finalNames)
    | some false => ([.promptDeploy], .ok finalNames)

/-- Lines 182-276: update_fly_secrets.  Sends the replace-all setSecrets
mutation, queries the remote names, and if any name is absent from the
pushed set asks for confirmation before sending the unsetSecrets mutation
for exactly those names.  When the unset mutation was sent, the release
lookup reads the setSecrets key of the unset response and finds none
(lines 240-265), so the deploy offer is reached.  Returns the action
trace and, on success, the final remote names. -/
def update_fly_secrets (secrets : List (String × String)) (env : FlyEnv) :
    List FlyAction × Except String (List String) :=
  let afterSet := namesAfterReplaceAll secrets env.remoteNames
  let flyOnly := flyOnlyNames secrets env.remoteNames
  let t0 : List FlyAction := [.setSecretsReplaceAll secrets, .querySecretNames]
  if flyOnly.length > 0 then
    match env.confirmDelete with
    | none => (t0 ++ [.promptDeleteConfirm flyOnly], .error "Aborted by user")
    | some true =>
      let finalNames := afterSet.filter (fun k => !flyOnly.contains k)
      let p := release_step none env.confirmDeploy finalNames
      (t0 ++ [.promptDeleteConfirm flyOnly, .unsetSecrets flyOnly] ++ p.1, p.2)
    | some false =>
      let p := release_step env.setSecretsRelease env.confirmDeploy afterSet
      (t0 ++ [.promptDeleteConfirm flyOnly] ++ p.1, p.2)
  else
    let p := release_step env.setSecretsRelease env.confirmDeploy afterSet
    (t0 ++ p.1, p.2)

/-! ## get_envs_from_1password (lines 107-118)

The item fetched from 1Password is an input: the list of its fields, each
with an id and an optional value (the value key of a field dict may be
absent, which field.get("value") turns into None). -/

/-- A field of a 1Password item as read by get_envs_from_1password. -/
structure OPField where
  id : String
  value : Option String
deriving DecidableEq, Repr

/-- Lines 110-114: the value of the first field whose id is notesPlain
(None when no such field exists or that field carries no value). -/
def notes_field_value (fields : List OPField) : Option String :=
  match (fields.filter (fun f => f.id == ONE_PASSWORD_NOTES_CONTENT_FIELD_NAME)).head? with
  | none => none
  | some f => f.value

/-- Lines 107-118: get_envs_from_1password.  Errors with "Empty secrets,
aborting" when the notes value is absent or the empty string, otherwise
returns it. -/
def get_envs_from_1password (fields : List OPField) : Except String String :=
  let result := notes_field_value fields
  if result = none ∨ result = some "" then .error "Empty secrets, aborting"
  else .ok (result.getD "")

/-! ## CLI surface: main (lines 708-729)

main dispatches to the selected operation inside a try block; a UserError
is caught and turned into sys.exit(1); normal completion falls through and
the process exits 0.  Embedded for the local push path on top of
update_1password_secrets. -/

/-- Lines 713-729: the exit-code mapping of main around one operation. -/
def exit_code_of (result : Except String Unit) : Nat :=
  match result with
  | .ok _ => 0
  | .error _ => 1

/-- The process exit code of a local push run (main dispatching to
push_local_secrets, whose fallible core is update_1password_secrets). -/
def main_local_push_exit_code (itemId : String)
    (newParsed previousParsed : List (String × Option String))
    (answer : Option Bool) : Nat :=
  exit_code_of (update_1password_secrets itemId newParsed previousParsed answer).2

/-! ## LabelDeriver: _get_git_remote_name and
get_secret_name_label_from_current_directory (lines 577-637)

The regular expression of line 578 is
    (word)+ then "://" or "@" then (not slash or colon)+ then "/" or ":"
    then (not slash or colon)+ then "/" then (any)+ any "git" at the end
with the dot before "git" UNESCAPED, i.e. an arbitrary character.  Every
quantified piece is followed by a character its class cannot match, so the
match is deterministic and is implemented below directly.  The dot
metacharacter excludes the newline; the input URL has been stripped, so
the end anchor is end-of-string.  The word class is modelled for ASCII
inputs. -/

/-- ASCII word character, the re \w class on ASCII input. -/
def isWordChar (c : Char) : Bool :=
  (97 ≤ c.toNat && c.toNat ≤ 122) || (65 ≤ c.toNat && c.toNat ≤ 90) ||
    (48 ≤ c.toNat && c.toNat ≤ 57) || c == '_'

/-- Character admitted by the regex class excluding slash and colon. -/
def notSlashColon (c : Char) : Bool :=
  !(c == '/' || c == ':')

/-- The trailing piece of the regex: group 5 is (.+), followed by an
arbitrary character (the unescaped dot) and the literal "git" at the end
of the string.  The split is forced: the literal occupies the last three
characters and the dot the one before them. -/
def matchRepoTail (s : List Char) : Option (List Char) :=
  if s.length < 5 then none
  else
    let g5 := s.take (s.length - 4)
    match s.drop (s.length - 4) with
    | [c, 'g', 'i', 't'] =>
      if c ≠ '\n' ∧ g5.all (fun a => a ≠ '\n') then some g5 else none
    | _ => none

/-- Line 578: the full match of git_repository_regex, returning groups 4
and 5 (the only groups the source uses). -/
def matchGitRepositoryRegex (s : List Char) : Option (List Char × List Char) :=
  let g1 := s.takeWhile isWordChar
  if g1 = [] then none
  else
    let afterScheme : Option (List Char) :=
      match s.dropWhile isWordChar with
      | ':' :: '/' :: '/' :: rest => some rest
      | '@' :: rest => some rest
      | _ => none
    match afterScheme with
    | none => none
    | some r2 =>
      let g3 := r2.takeWhile notSlashColon
      if g3 = [] then none
      else
        match r2.dropWhile notSlashColon with
        | [] => none
        | _sep :: r4 =>
          let g4 := r4.takeWhile notSlashColon
          if g4 = [] then none
          else
            match r4.dropWhile notSlashColon with
            | '/' :: r6 =>
              match matchRepoTail r6 with
              | some g5 => some (g4, g5)
              | none => none
            | _ => none

/-- Outcome of the git config subprocess call of lines 583-594, an
external input: the git executable may be missing (FileNotFoundError),
the call may fail with an exit code (CalledProcessError), or it may
print the remote URL (already stripped). -/
inductive GitConfigResult where
  | toolMissing
  | calledProcessError (exitCode : Int)
  | output (url : String)
deriving DecidableEq, Repr

/-- Lines 577-615: _get_git_remote_name.  Returns (error message, remote
name); exactly one of the two is present on every code path. -/
def get_git_remote_name (remote : String) (res : GitConfigResult) :
    Option String × Option String :=
  match res with
  | .toolMissing => (some "git not in the PATH", none)
  | .calledProcessError exitCode =>
    if exitCode = 1 then
      (some ("Either not in a git repository or remote '" ++ remote ++ "' is not set"), none)
    else
      (some ("Failed to retrieve the git remote '" ++ remote ++ "' url"), none)
  | .output url =>
    match matchGitRepositoryRegex url.data with
    | none => (some ("Failed to parse git remote \"" ++ remote ++ "\""), none)
    | some g => (none, some (String.mk g.1 ++ "/" ++ String.mk g.2))

/-- Lines 618-637: get_secret_name_label_from_current_directory.  On a
parsed remote returns the repo label; on any failure returns the
directory-based label together with the informational message the source
prints (the failure reason).  The current directory's basename is an
input. -/
def get_secret_name_label_from_current_directory (remote : String) (res : GitConfigResult)
    (cwdBasename : String) : String × Option String :=
  match get_git_remote_name remote res with
  | (none, gitRemoteName) => ("repo:" ++ gitRemoteName.getD "None", none)
  | (some errorMessage, _) =>
    let label := "local-dir:" ++ cwdBasename
    (label, some (errorMessage ++ ", using the label based on the current directory: '" ++
      label ++ "'"))

/-! ## EnvBlockCodec, full codec for the round-trip claim

The repository has no encoder: raw text is passed around everywhere and
only decoded (via the third-party dotenv parser) for diffing, so both
directions of the codec named by the spec are modelled from the spec.

Modelled from the spec: decode parses KEY=VALUE formatted lines (blank
lines and comment lines ignored), mapping a key without a value to null,
later duplicates overriding earlier ones in place, and then applies the
source's null-value check (get_secrets_from_envs above); encode
serializes KEY=VALUE lines, one per entry, preserving insertion order.
The parser is line-based and does not model dotenv quoting or trimming;
that restriction only matters for inputs outside the round-trip domain
established below. -/

/-- Split a line at its first equals sign: key, and value when the sign
is present. -/
def break_at_eq : List Char → List Char × Option (List Char)
  | [] => ([], none)
  | a :: rest =>
    if a = '=' then ([], some rest)
    else
      let p := break_at_eq rest
      (a :: p.1, p.2)

/-- Parse one line: blank lines and lines beginning with the comment mark
yield nothing; otherwise the line is split at its first equals sign. -/
def parse_env_line (line : List Char) : Option (List Char × Option (List Char)) :=
  match line with
  | [] => none
  | a :: _ =>
    if a = '#' then none
    else some (break_at_eq line)

/-- Dict insertion: an existing key is overridden in place, a new key is
appended. -/
def upsert_env (acc : List (String × Option String)) (k : String) (v : Option String) :
    List (String × Option String) :=
  if acc.any (fun kv => kv.1 == k) then
    acc.map (fun kv => if kv.1 == k then (k, v) else kv)
  else
    acc ++ [(k, v)]

/-- One folding step of the modelled parser. -/
def dotenv_step (acc : List (String × Option String)) (line : List Char) :
    List (String × Option String) :=
  match parse_env_line line with
  | none => acc
  | some kv => upsert_env acc (String.mk kv.1) (kv.2.map (fun w => String.mk w))

/-- Modelled from the spec: the ordered key to optional-value mapping the
dotenv parser produces from a text. -/
def dotenv_values_model (input : String) : List (String × Option String) :=
  (splitOnChar '\n' input.data).foldl dotenv_step []

/-- EnvBlockCodec.decode: parse, then apply the source's null check. -/
def decode (input : String) : Except String (List (String × String)) :=
  get_secrets_from_envs (dotenv_values_model input)

/-- Character-level serialization of a secret set to KEY=VALUE lines. -/
def encodeChars : List (String × String) → List Char
  | [] => []
  | kv :: rest => kv.1.data ++ '=' :: (kv.2.data ++ '\n' :: encodeChars rest)

/-- Modelled from the spec: EnvBlockCodec.encode, KEY=VALUE lines in
insertion order. -/
def encode (s : List (String × String)) : String :=
  String.mk (encodeChars s)

/-- The spec's validity condition on a SecretSet: keys non-empty and
unique; values are plain (non-null) strings by type. -/
def spec_valid_secret_set (s : List (String × String)) : Prop :=
  (∀ kv ∈ s, kv.1 ≠ "") ∧ (s.map (fun kv => kv.1)).Nodup

instance (s : List (String × String)) : Decidable (spec_valid_secret_set s) := by
  unfold spec_valid_secret_set; infer_instance

/-- Keys fit for the modelled line grammar: non-empty, no equals sign, no
newline, not beginning with the comment mark. -/
def env_key_ok (k : String) : Prop :=
  k.data ≠ [] ∧ '=' ∉ k.data ∧ '\n' ∉ k.data ∧ k.data.head? ≠ some '#'

instance (k : String) : Decidable (env_key_ok k) := by
  unfold env_key_ok; infer_instance

/-! ## Theorems for the claims -/

/-- Claim C4: SecretSetDiff.compute.  For every pair of secret sets, added
is exactly the keys in next and not in previous, removed exactly those in
previous and not in next, and modified exactly the keys present in both
whose values differ by exact string equality; the three sets are pairwise
disjoint, keys with identical values in both appear in none of them, and
compute(s, s) is empty in all three categories. -/
theorem claim_C4_secret_set_diff (previous next : List (String × String)) (k : String) :
    (k ∈ addedKeysOf previous next ↔ k ∈ secretKeys next ∧ k ∉ secretKeys previous)
  ∧ (k ∈ deletedKeysOf previous next ↔ k ∈ secretKeys previous ∧ k ∉ secretKeys next)
  ∧ (k ∈ modifiedKeysOf previous next ↔
      k ∈ secretKeys previous ∧ k ∈ secretKeys next ∧
        List.lookup k previous ≠ List.lookup k next)
  ∧ ¬(k ∈ addedKeysOf previous next ∧ k ∈ deletedKeysOf previous next)
  ∧ ¬(k ∈ addedKeysOf previous next ∧ k ∈ modifiedKeysOf previous next)
  ∧ ¬(k ∈ deletedKeysOf previous next ∧ k ∈ modifiedKeysOf previous next)
  ∧ (k ∈ secretKeys previous → k ∈ secretKeys next →
      List.lookup k previous = List.lookup k next →
      k ∉ addedKeysOf previous next ∧ k ∉ deletedKeysOf previous next ∧
        k ∉ modifiedKeysOf previous next)
  ∧ (addedKeysOf previous previous = [] ∧ deletedKeysOf previous previous = [] ∧
      modifiedKeysOf previous previous = []) := by
  have hadd : k ∈ addedKeysOf previous next ↔ k ∈ secretKeys next ∧ k ∉ secretKeys previous := by
    simp [addedKeysOf, List.mem_filter, List.elem_iff]
  have hdel : k ∈ deletedKeysOf previous next ↔ k ∈ secretKeys previous ∧ k ∉ secretKeys next := by
    simp [deletedKeysOf, List.mem_filter, List.elem_iff]
  have hmod : k ∈ modifiedKeysOf previous next ↔
      k ∈ secretKeys previous ∧ k ∈ secretKeys next ∧
        List.lookup k previous ≠ List.lookup k next := by
    simp only [modifiedKeysOf, List.mem_filter, List.elem_iff, Bool.not_eq_true',
      beq_iff_eq, bne_iff_ne, ne_eq, Bool.not_eq_true, beq_eq_false_iff_ne]
    tauto
  refine ⟨hadd, hdel, hmod, ?_, ?_, ?_, ?_, ?_, ?_, ?_⟩
  · rw [hadd, hdel]; tauto
  · rw [hadd, hmod]; tauto
  · rw [hdel, hmod]; tauto
  · intro h1 h2 h3
    rw [hadd, hdel, hmod]; tauto
  · simp [addedKeysOf, List.filter_eq_nil_iff, List.elem_iff]
  · simp [deletedKeysOf, List.filter_eq_nil_iff, List.elem_iff]
  · simp [modifiedKeysOf, List.filter_eq_nil_iff, List.elem_iff]

/-- Claim C5: EnvBlockCodec.decode null check.  For every dotenv parse
result, decoding succeeds iff no parsed key maps to a null value; when at
least one does, it fails with the single error message listing all
offending keys (keys_with_null_values collects exactly the keys whose
parsed value is null). -/
theorem claim_C5_null_value_check (secrets : List (String × Option String)) :
    ((get_secrets_from_envs secrets).isOk = true ↔ keys_with_null_values secrets = [])
  ∧ (∀ k, k ∈ keys_with_null_values secrets ↔ (k, none) ∈ secrets)
  ∧ (keys_with_null_values secrets ≠ [] →
      get_secrets_from_envs secrets =
        .error (parse_error_message (keys_with_null_values secrets))) := by
  refine ⟨?_, ?_, ?_⟩
  · cases hk : keys_with_null_values secrets with
    | nil => simp [get_secrets_from_envs, hk, Except.isOk, Except.toBool]
    | cons a t => simp [get_secrets_from_envs, hk, Except.isOk, Except.toBool]
  · intro k
    simp only [keys_with_null_values, List.mem_map, List.mem_filter,
      Option.isNone_iff_eq_none]
    constructor
    · rintro ⟨⟨a, b⟩, ⟨hmem, hb⟩, rfl⟩
      simp only at hb
      subst hb
      exact hmem
    · intro h
      exact ⟨(k, none), ⟨h, rfl⟩, rfl⟩
  · intro h
    have hl : (keys_with_null_values secrets).length > 0 := by
      cases hk : keys_with_null_values secrets with
      | nil => exact absurd hk h
      | cons a t => simp [hk]
    simp [get_secrets_from_envs, hl]

/-- Claim C10 (implicit): get_envs_from_1password fails with the error
"Empty secrets, aborting" exactly when the item's first notesPlain field
value is absent or the empty string (also when no notesPlain field
exists), and otherwise returns the nonempty secret block, so callers
never receive an empty block as an empty SecretSet. -/
theorem claim_C10_empty_secret_block (fields : List OPField) :
    (get_envs_from_1password fields = .error "Empty secrets, aborting" ↔
      notes_field_value fields = none ∨ notes_field_value fields = some "")
  ∧ (∀ s, get_envs_from_1password fields = .ok s ↔
      notes_field_value fields = some s ∧ s ≠ "") := by
  rcases h : notes_field_value fields with _ | v
  · simp [get_envs_from_1password, h]
  · by_cases hv : v = ""
    · subst hv
      simp [get_envs_from_1password, h]
    · constructor
      · simp [get_envs_from_1password, h, hv]
      · intro s
        simp [get_envs_from_1password, h, hv]
        rintro rfl
        exact hv

lemma prompt_secret_diff_decline (previousParsed newParsed : List (String × Option String)) :
    ∃ e, (prompt_secret_diff previousParsed newParsed (some false)).2 = .error e := by
  unfold prompt_secret_diff
  rcases hp : get_secrets_from_envs previousParsed with e | p
  · exact ⟨e, rfl⟩
  · rcases hn : get_secrets_from_envs newParsed with e | n
    · exact ⟨e, rfl⟩
    · by_cases hc : deletedKeysOf p n = [] ∧ addedKeysOf p n = [] ∧ modifiedKeysOf p n = []
      · exact ⟨"Aborted by user", by simp [hc]⟩
      · exact ⟨"Aborted by user", by simp [hc]⟩

lemma update_1password_secrets_decline_errors (itemId : String)
    (newParsed previousParsed : List (String × Option String)) :
    ∃ e, (update_1password_secrets itemId newParsed previousParsed (some false)).2 =
      .error e := by
  obtain ⟨e, he⟩ := prompt_secret_diff_decline previousParsed newParsed
  exact ⟨e, by simp [update_1password_secrets, he]⟩

/-- Claim C6: push_to_vault confirmation.  For texts that both decode,
when the user declines the confirmation the operation fails with the
"Aborted by user" error and the trace contains no vault write; and in the
empty-diff case the "Proceed anyway" prompt still occurs before any
write. -/
theorem claim_C6_push_requires_confirmation (itemId : String)
    (previousParsed newParsed : List (String × Option String)) (answer : Option Bool)
    (ha : answer = some false)
    (hp : (get_secrets_from_envs previousParsed).isOk = true)
    (hn : (get_secrets_from_envs newParsed).isOk = true) :
    (update_1password_secrets itemId newParsed previousParsed answer).2 =
      .error "Aborted by user"
  ∧ (∀ i, VaultAction.editItem i ∉
      (update_1password_secrets itemId newParsed previousParsed answer).1)
  ∧ (emptyDiffInputs previousParsed newParsed = true →
      VaultAction.promptProceedAnyway ∈
        (update_1password_secrets itemId newParsed previousParsed answer).1) := by
  subst ha
  rcases hgp : get_secrets_from_envs previousParsed with e | p
  · rw [hgp] at hp; simp [Except.isOk, Except.toBool] at hp
  rcases hgn : get_secrets_from_envs newParsed with e | n
  · rw [hgn] at hn; simp [Except.isOk, Except.toBool] at hn
  by_cases hc : deletedKeysOf p n = [] ∧ addedKeysOf p n = [] ∧ modifiedKeysOf p n = []
  · refine ⟨?_, ?_, ?_⟩ <;>
      simp [update_1password_secrets, prompt_secret_diff, hgp, hgn, hc, List.length_eq_zero]
  · refine ⟨?_, ?_, ?_⟩
    · simp [update_1password_secrets, prompt_secret_diff, hgp, hgn, hc]
    · simp [update_1password_secrets, prompt_secret_diff, hgp, hgn, hc]
    · intro hed
      exfalso
      simp [emptyDiffInputs, hgp, hgn, List.length_eq_zero] at hed
      exact hc ⟨hed.1.1, hed.1.2, hed.2⟩

/-- Claim C9: CLI exit codes, modelled on the local-push operation.  The
process exits 0 iff the operation completed successfully and 1 iff it
raised a user-facing error, including a user-declined confirmation. -/
theorem claim_C9_exit_codes (itemId : String)
    (newParsed previousParsed : List (String × Option String)) (answer : Option Bool) :
    (main_local_push_exit_code itemId newParsed previousParsed answer = 0 ↔
      (update_1password_secrets itemId newParsed previousParsed answer).2 = .ok ())
  ∧ (main_local_push_exit_code itemId newParsed previousParsed answer = 1 ↔
      ∃ e, (update_1password_secrets itemId newParsed previousParsed answer).2 = .error e)
  ∧ (answer = some false →
      main_local_push_exit_code itemId newParsed previousParsed answer = 1) := by
  refine ⟨?_, ?_, ?_⟩
  · rcases h : (update_1password_secrets itemId newParsed previousParsed answer).2 with e | u
    · simp [main_local_push_exit_code, exit_code_of, h]
    · simp [main_local_push_exit_code, exit_code_of, h]
  · rcases h : (update_1password_secrets itemId newParsed previousParsed answer).2 with e | u
    · simp [main_local_push_exit_code, exit_code_of, h]
    · simp [main_local_push_exit_code, exit_code_of, h]
  · rintro rfl
    obtain ⟨e, he⟩ := update_1password_secrets_decline_errors itemId newParsed previousParsed
    simp [main_local_push_exit_code, exit_code_of, he]

lemma release_step_no_unset (r : Option String) (c : Option Bool) (f : List String)
    (ns : List String) : FlyAction.unsetSecrets ns ∉ (release_step r c f).1 := by
  rcases r with _ | v
  · rcases c with _ | b
    · simp [release_step]
    · rcases b <;> simp [release_step]
  · simp [release_step]

lemma update_fly_secrets_trace_shape (secrets : List (String × String)) (env : FlyEnv) :
    ∃ tail : List FlyAction,
      (update_fly_secrets secrets env).1 =
        [FlyAction.setSecretsReplaceAll secrets, FlyAction.querySecretNames] ++ tail ∧
      (∀ ns, FlyAction.unsetSecrets ns ∈ tail →
        env.confirmDelete = some true ∧
        tail.take 2 = [FlyAction.promptDeleteConfirm ns, FlyAction.unsetSecrets ns]) := by
  obtain ⟨rn, rel, cd, cdep⟩ := env
  by_cases h : (flyOnlyNames secrets rn).length > 0
  · rcases cd with _ | cb
    · refine ⟨[.promptDeleteConfirm (flyOnlyNames secrets rn)], ?_, ?_⟩
      · simp [update_fly_secrets, h]
      · intro ns hns
        simp at hns
    · rcases cb
      · refine ⟨[.promptDeleteConfirm (flyOnlyNames secrets rn)] ++
          (release_step rel cdep (namesAfterReplaceAll secrets rn)).1, ?_, ?_⟩
        · simp [update_fly_secrets, h]
        · intro ns hns
          simp at hns
          exact absurd hns (release_step_no_unset _ _ _ _)
      · refine ⟨[.promptDeleteConfirm (flyOnlyNames secrets rn),
          .unsetSecrets (flyOnlyNames secrets rn)] ++
          (release_step none cdep ((namesAfterReplaceAll secrets rn).filter
            (fun k => !(flyOnlyNames secrets rn).contains k))).1, ?_, ?_⟩
        · simp [update_fly_secrets, h]
        · intro ns hns
          simp at hns
          rcases hns with hns | hns
          · subst hns
            exact ⟨rfl, rfl⟩
          · exact absurd hns (release_step_no_unset _ _ _ _)
  · refine ⟨(release_step rel cdep (namesAfterReplaceAll secrets rn)).1, ?_, ?_⟩
    · simp [update_fly_secrets, h]
    · intro ns hns
      exact absurd hns (release_step_no_unset _ _ _ _)

/-- Claim C3: in update_fly_secrets the replace-all setSecrets mutation,
carrying exactly the desired secret set, is always the first action of
the trace, before any deletion prompt, regardless of the user's later
answers; and any unsetSecrets action is a separate step that occurs only
after a deletion prompt for the same key list was confirmed. -/
theorem claim_C3_replace_all_before_delete_prompt (secrets : List (String × String))
    (env : FlyEnv) :
    (update_fly_secrets secrets env).1.head? = some (.setSecretsReplaceAll secrets)
  ∧ (∀ ns, FlyAction.unsetSecrets ns ∈ (update_fly_secrets secrets env).1 →
      (update_fly_secrets secrets env).1.take 4 =
        [.setSecretsReplaceAll secrets, .querySecretNames,
          .promptDeleteConfirm ns, .unsetSecrets ns]
      ∧ env.confirmDelete = some true) := by
  obtain ⟨tail, hshape, htail⟩ := update_fly_secrets_trace_shape secrets env
  constructor
  · rw [hshape]; rfl
  · intro ns hns
    rw [hshape] at hns
    simp at hns
    obtain ⟨hcd, htake⟩ := htail ns hns
    refine ⟨?_, hcd⟩
    rw [hshape]
    simp [htake]

/-- Claim C2 (amended): in update_fly_secrets, when the user declines the
deletion confirmation the unset mutation is never sent, every
pre-existing remote key is still present afterwards, and (when the
replace-all response carried a release) the prompt for the remote-only
keys did occur and the engine completes normally rather than returning an
aborted outcome. -/
theorem claim_C2_decline_skips_unset (secrets : List (String × String)) (env : FlyEnv)
    (v : String) (hd : env.confirmDelete = some false)
    (hr : env.setSecretsRelease = some v) :
    (∀ ns, FlyAction.unsetSecrets ns ∉ (update_fly_secrets secrets env).1)
  ∧ (flyOnlyNames secrets env.remoteNames ≠ [] →
      FlyAction.promptDeleteConfirm (flyOnlyNames secrets env.remoteNames) ∈
        (update_fly_secrets secrets env).1)
  ∧ (update_fly_secrets secrets env).2 = .ok (namesAfterReplaceAll secrets env.remoteNames)
  ∧ (∀ k, k ∈ env.remoteNames → k ∈ namesAfterReplaceAll secrets env.remoteNames) := by
  obtain ⟨rn, rel, cd, cdep⟩ := env
  simp only at hd hr
  subst hd
  subst hr
  by_cases h : (flyOnlyNames secrets rn).length > 0
  · refine ⟨?_, ?_, ?_, ?_⟩
    · intro ns
      simp [update_fly_secrets, h, release_step]
    · intro _
      simp [update_fly_secrets, h, release_step]
    · simp [update_fly_secrets, h, release_step]
    · intro k hk
      simp [namesAfterReplaceAll, hk]
  · refine ⟨?_, ?_, ?_, ?_⟩
    · intro ns
      simp [update_fly_secrets, h, release_step]
    · intro hne
      exfalso
      exact hne (by simpa using h)
    · simp [update_fly_secrets, h, release_step]
    · intro k hk
      simp [namesAfterReplaceAll, hk]

/-- Claim C2 counterexample: at the spec's own scenario (remote works on
A, B, D; desired holds A and B; deletion declined) the engine prompts,
never unsets, keeps D — and returns a successful result, not Aborted,
refuting the claim's final conjunct. -/
theorem claim_C2_counterexample :
    (update_fly_secrets [("A", "1"), ("B", "2")]
        ⟨["A", "B", "D"], some "5", some false, some false⟩).2 = .ok ["A", "B", "D"]
  ∧ FlyAction.unsetSecrets ["D"] ∉
      (update_fly_secrets [("A", "1"), ("B", "2")]
        ⟨["A", "B", "D"], some "5", some false, some false⟩).1
  ∧ FlyAction.promptDeleteConfirm ["D"] ∈
      (update_fly_secrets [("A", "1"), ("B", "2")]
        ⟨["A", "B", "D"], some "5", some false, some false⟩).1 := by
  refine ⟨by decide, by decide, by decide⟩

/-- Claim C1: ItemLocator.resolve.  The filter keeps exactly the items
whose space-split title contains the token as a whole word; zero matches
fail with the not-found error, two or more with the ambiguity error
carrying the count, and exactly one match returns that item's id. -/
theorem claim_C1_item_locator (titleSubstring : String) (secureNotes : List OPItem) :
    (∀ item, item ∈ matchingItems titleSubstring secureNotes ↔
      item ∈ secureNotes ∧ titleSubstring ∈ titleWords item.title)
  ∧ (get_1password_env_file_item_id titleSubstring secureNotes =
      .error (.notFoundError titleSubstring) ↔ matchingItems titleSubstring secureNotes = [])
  ∧ (∀ c, get_1password_env_file_item_id titleSubstring secureNotes =
      .error (.ambiguousMatchError c) ↔
      2 ≤ (matchingItems titleSubstring secureNotes).length ∧
        c = (matchingItems titleSubstring secureNotes).length)
  ∧ (∀ item, matchingItems titleSubstring secureNotes = [item] →
      get_1password_env_file_item_id titleSubstring secureNotes = .ok item.id) := by
  refine ⟨?_, ?_, ?_, ?_⟩
  · intro item
    simp [matchingItems, List.mem_filter, List.elem_iff]
  · rcases hm : matchingItems titleSubstring secureNotes with _ | ⟨a, _ | ⟨b, tail⟩⟩
    all_goals simp [get_1password_env_file_item_id, hm]
  · intro c
    rcases hm : matchingItems titleSubstring secureNotes with _ | ⟨a, _ | ⟨b, tail⟩⟩
    all_goals simp [get_1password_env_file_item_id, hm]
    all_goals omega
  · intro item hitem
    simp [get_1password_env_file_item_id, hitem]

/-- Claim C1 witness: a concrete catalogue with exactly one whole-word
title match resolves to that item's id. -/
theorem claim_C1_witness :
    get_1password_env_file_item_id "fly:demo"
      [⟨"id1", "fly:demo staging"⟩, ⟨"id2", "other note"⟩] = .ok "id1" :=
  (claim_C1_item_locator "fly:demo"
    [⟨"id1", "fly:demo staging"⟩, ⟨"id2", "other note"⟩]).2.2.2
    ⟨"id1", "fly:demo staging"⟩ (by decide)

/-- Claim C2 witness: the amended theorem instantiated on the concrete
scenario with remote-only key D and a declined deletion prompt. -/
theorem claim_C2_witness :
    FlyAction.promptDeleteConfirm ["D"] ∈
      (update_fly_secrets [("A", "1"), ("B", "2")]
        ⟨["A", "B", "D"], some "7", some false, some true⟩).1
  ∧ FlyAction.unsetSecrets ["D"] ∉
      (update_fly_secrets [("A", "1"), ("B", "2")]
        ⟨["A", "B", "D"], some "7", some false, some true⟩).1
  ∧ (update_fly_secrets [("A", "1"), ("B", "2")]
        ⟨["A", "B", "D"], some "7", some false, some true⟩).2 = .ok ["A", "B", "D"] := by
  have h := claim_C2_decline_skips_unset [("A", "1"), ("B", "2")]
    ⟨["A", "B", "D"], some "7", some false, some true⟩ "7" rfl rfl
  exact ⟨h.2.1 (by decide), h.1 ["D"], h.2.2.1⟩

/-- Claim C3 witness: on a confirmed deletion run, the trace begins with
the replace-all mutation, the query, the prompt and only then the unset. -/
theorem claim_C3_witness :
    (update_fly_secrets [("A", "1")] ⟨["A", "D"], some "5", some true, some false⟩).1.take 4 =
      [.setSecretsReplaceAll [("A", "1")], .querySecretNames,
        .promptDeleteConfirm ["D"], .unsetSecrets ["D"]] := by
  have h := (claim_C3_replace_all_before_delete_prompt [("A", "1")]
    ⟨["A", "D"], some "5", some true, some false⟩).2 ["D"] (by decide)
  exact h.1

/-- Claim C4 witness: a key present in both sets with identical values
belongs to none of the three diff categories on concrete inputs. -/
theorem claim_C4_witness :
    "A" ∉ addedKeysOf [("A", "1"), ("B", "2")] [("A", "1"), ("C", "3")]
  ∧ "A" ∉ deletedKeysOf [("A", "1"), ("B", "2")] [("A", "1"), ("C", "3")]
  ∧ "A" ∉ modifiedKeysOf [("A", "1"), ("B", "2")] [("A", "1"), ("C", "3")] :=
  (claim_C4_secret_set_diff [("A", "1"), ("B", "2")] [("A", "1"), ("C", "3")]
    "A").2.2.2.2.2.2.1 (by decide) (by decide) (by decide)

/-- Claim C5 witness: a concrete parse result with two null-valued keys
fails with the message listing both keys together. -/
theorem claim_C5_witness :
    get_secrets_from_envs [("A", some "1"), ("B", none), ("C", none)] =
      .error (parse_error_message ["B", "C"]) :=
  (claim_C5_null_value_check [("A", some "1"), ("B", none), ("C", none)]).2.2 (by decide)

/-- Claim C6 witness: pushing identical content with a declined prompt
aborts with the user error after the no-diff prompt was shown. -/
theorem claim_C6_witness :
    (update_1password_secrets "item7" [("A", some "1")] [("A", some "1")]
        (some false)).2 = .error "Aborted by user"
  ∧ VaultAction.promptProceedAnyway ∈
      (update_1password_secrets "item7" [("A", some "1")] [("A", some "1")]
        (some false)).1 := by
  have h := claim_C6_push_requires_confirmation "item7" [("A", some "1")] [("A", some "1")]
    (some false) rfl (by decide) (by decide)
  exact ⟨h.1, h.2.2 (by decide)⟩

/-- Claim C9 witness: a declined confirmation yields exit code 1 on
concrete inputs. -/
theorem claim_C9_witness :
    main_local_push_exit_code "item9" [("A", some "1")] [("A", some "2")] (some false) = 1 :=
  (claim_C9_exit_codes "item9" [("A", some "1")] [("A", some "2")] (some false)).2.2 rfl

/-- Claim C10 witness: a concrete item with a nonempty notesPlain field
is read back successfully. -/
theorem claim_C10_witness :
    get_envs_from_1password [⟨"notesPlain", some "A=1"⟩] = .ok "A=1" :=
  ((claim_C10_empty_secret_block [⟨"notesPlain", some "A=1"⟩]).2 "A=1").mpr
    (by refine ⟨by decide, by decide⟩)

lemma matchGitRepositoryRegex_any_char_git (c : Char) (hc : c ≠ '\n') :
    matchGitRepositoryRegex ("git@github.com:org/repo".data ++ c :: "git".data) =
      some ("org".data, "repo".data) := by
  simp [matchGitRepositoryRegex, matchRepoTail, isWordChar, notSlashColon, hc,
    List.takeWhile, List.dropWhile]

/-- Claim C7 (amended): LabelDeriver.  The URL git@github.com:org/repo.git
derives the label repo:org/repo; the grammar requires the URL to end in
"git" preceded by one arbitrary character (the unescaped dot of the
regex), not necessarily the literal ".git"; and every failure (tool
missing, subprocess error, unparsable URL) falls back to the
local-dir label with an informational message present. -/
theorem claim_C7_label_derivation (remote cwdBasename : String) :
    get_secret_name_label_from_current_directory remote
      (.output "git@github.com:org/repo.git") cwdBasename = ("repo:org/repo", none)
  ∧ (∀ c : Char, c ≠ '\n' →
      get_secret_name_label_from_current_directory remote
        (.output (String.mk ("git@github.com:org/repo".data ++ c :: "git".data)))
        cwdBasename = ("repo:org/repo", none))
  ∧ ((get_secret_name_label_from_current_directory remote .toolMissing cwdBasename).1 =
        "local-dir:" ++ cwdBasename ∧
      (get_secret_name_label_from_current_directory remote .toolMissing
        cwdBasename).2.isSome = true)
  ∧ (∀ code : Int,
      (get_secret_name_label_from_current_directory remote (.calledProcessError code)
          cwdBasename).1 = "local-dir:" ++ cwdBasename ∧
      (get_secret_name_label_from_current_directory remote (.calledProcessError code)
          cwdBasename).2.isSome = true)
  ∧ (∀ url, matchGitRepositoryRegex url.data = none →
      (get_secret_name_label_from_current_directory remote (.output url)
          cwdBasename).1 = "local-dir:" ++ cwdBasename ∧
      (get_secret_name_label_from_current_directory remote (.output url)
          cwdBasename).2.isSome = true) := by
  refine ⟨?_, ?_, ?_, ?_, ?_⟩
  · have h : matchGitRepositoryRegex "git@github.com:org/repo.git".data =
        some ("org".data, "repo".data) := by decide
    simp [get_secret_name_label_from_current_directory, get_git_remote_name, h]
  · intro c hc
    have hdata : (String.mk ("git@github.com:org/repo".data ++ c :: "git".data)).data =
        "git@github.com:org/repo".data ++ c :: "git".data := rfl
    simp only [get_secret_name_label_from_current_directory, get_git_remote_name, hdata,
      matchGitRepositoryRegex_any_char_git c hc]
    rfl
  · constructor <;>
      simp [get_secret_name_label_from_current_directory, get_git_remote_name]
  · intro code
    by_cases h : code = 1
    · constructor <;>
        simp [get_secret_name_label_from_current_directory, get_git_remote_name, h]
    · constructor <;>
        simp [get_secret_name_label_from_current_directory, get_git_remote_name, h]
  · intro url h
    constructor <;>
      simp [get_secret_name_label_from_current_directory, get_git_remote_name, h]

/-- Claim C7 counterexample: the URL git@github.com:org/repoXgit has no
literal trailing ".git" yet parses (the regex dot is unescaped), deriving
repo:org/repo instead of falling back to the local-dir label, refuting
the claim's grammar conjunct. -/
theorem claim_C7_counterexample :
    get_secret_name_label_from_current_directory "origin"
      (.output "git@github.com:org/repoXgit") "mydir" = ("repo:org/repo", none) := by
  decide

/-- Claim C7 witness: the amended theorem instantiated with the character
'-' before the trailing "git" and with an unparsable URL. -/
theorem claim_C7_witness :
    get_secret_name_label_from_current_directory "origin"
      (.output (String.mk ("git@github.com:org/repo".data ++ '-' :: "git".data))) "mydir" =
      ("repo:org/repo", none)
  ∧ (get_secret_name_label_from_current_directory "origin" (.output "nonsense")
        "mydir").1 = "local-dir:mydir"
  ∧ (get_secret_name_label_from_current_directory "origin" (.output "nonsense")
        "mydir").2.isSome = true := by
  have h := claim_C7_label_derivation "origin" "mydir"
  have h5 := h.2.2.2.2 "nonsense" (by decide)
  exact ⟨h.2.1 '-' (by decide), h5.1, h5.2⟩

lemma splitOnChar_append_cons (c : Char) (a b : List Char) (h : c ∉ a) :
    splitOnChar c (a ++ c :: b) = a :: splitOnChar c b := by
  induction a with
  | nil => simp [splitOnChar]
  | cons x xs ih =>
    have hx : x ≠ c := by
      intro hxc
      exact h (hxc ▸ List.mem_cons_self x xs)
    have hxs : c ∉ xs := fun hm => h (List.mem_cons_of_mem x hm)
    simp only [List.cons_append, splitOnChar, hx, if_false, List.append_eq, ih hxs]

lemma break_at_eq_append (k v : List Char) (h : '=' ∉ k) :
    break_at_eq (k ++ '=' :: v) = (k, some v) := by
  induction k with
  | nil => simp [break_at_eq]
  | cons x xs ih =>
    have hx : x ≠ '=' := by
      intro hxc
      exact h (hxc ▸ List.mem_cons_self x xs)
    have hxs : '=' ∉ xs := fun hm => h (List.mem_cons_of_mem x hm)
    simp only [List.cons_append, break_at_eq, hx, if_false, List.append_eq, ih hxs]

lemma parse_env_line_keyed (k v : List Char) (hne : k ≠ []) (heq : '=' ∉ k)
    (hh : k.head? ≠ some '#') :
    parse_env_line (k ++ '=' :: v) = some (k, some v) := by
  cases k with
  | nil => exact absurd rfl hne
  | cons x xs =>
    have hx : x ≠ '#' := by
      intro hxc
      exact hh (by simp [hxc])
    have hb : break_at_eq (x :: (xs ++ '=' :: v)) = (x :: xs, some v) :=
      break_at_eq_append (x :: xs) v heq
    simp [parse_env_line, hx, hb]

lemma splitOnChar_encodeChars (s : List (String × String))
    (h : ∀ kv ∈ s, '\n' ∉ kv.1.data ∧ '\n' ∉ kv.2.data) :
    splitOnChar '\n' (encodeChars s) =
      s.map (fun kv => kv.1.data ++ '=' :: kv.2.data) ++ [[]] := by
  induction s with
  | nil => simp [encodeChars, splitOnChar]
  | cons kv rest ih =>
    have hkv := h kv (List.mem_cons_self kv rest)
    have hrest : ∀ kv ∈ rest, '\n' ∉ kv.1.data ∧ '\n' ∉ kv.2.data :=
      fun kv hm => h kv (List.mem_cons_of_mem _ hm)
    have hline : '\n' ∉ kv.1.data ++ '=' :: kv.2.data := by
      intro hm
      rcases List.mem_append.mp hm with hm | hm
      · exact hkv.1 hm
      · rcases List.mem_cons.mp hm with hm | hm
        · exact absurd hm.symm (by decide)
        · exact hkv.2 hm
    have hassoc : encodeChars (kv :: rest) =
        (kv.1.data ++ '=' :: kv.2.data) ++ '\n' :: encodeChars rest := by
      simp [encodeChars]
    rw [hassoc, splitOnChar_append_cons _ _ _ hline, ih hrest]
    simp

lemma string_eta (s : String) : String.mk s.data = s := rfl

lemma dotenv_fold_append (s : List (String × String)) (acc : List (String × Option String))
    (hk : ∀ kv ∈ s, env_key_ok kv.1)
    (hnd : (s.map (fun kv : String × String => kv.1)).Nodup)
    (hdisj : ∀ kv ∈ s, ∀ ab ∈ acc, ab.1 ≠ kv.1) :
    (s.map (fun kv : String × String => kv.1.data ++ '=' :: kv.2.data) ++ [[]]).foldl
        dotenv_step acc =
      acc ++ s.map (fun kv : String × String => (kv.1, some kv.2)) := by
  induction s generalizing acc with
  | nil => simp [dotenv_step, parse_env_line]
  | cons kv rest ih =>
    have hkv := hk kv (List.mem_cons_self kv rest)
    have hnd' : kv.1 ∉ rest.map (fun p : String × String => p.1) ∧
        (rest.map (fun p : String × String => p.1)).Nodup := by
      rw [List.map_cons] at hnd
      exact List.nodup_cons.mp hnd
    have hstep : dotenv_step acc (kv.1.data ++ '=' :: kv.2.data) =
        acc ++ [(kv.1, some kv.2)] := by
      rw [dotenv_step, parse_env_line_keyed _ _ hkv.1 hkv.2.1 hkv.2.2.2]
      simp only [Option.map_some', string_eta]
      rw [upsert_env]
      have hany : (acc.any (fun ab => ab.1 == kv.1)) = false := by
        rw [List.any_eq_false]
        intro ab hab
        simpa using hdisj kv (List.mem_cons_self kv rest) ab hab
      simp [hany]
    simp only [List.map_cons, List.cons_append, List.foldl_cons, hstep]
    rw [ih (acc ++ [(kv.1, some kv.2)]) (fun kv' hm => hk kv' (List.mem_cons_of_mem _ hm))
      hnd'.2]
    · simp
    · intro kv' hm ab hab
      rcases List.mem_append.mp hab with h1 | h1
      · exact hdisj kv' (List.mem_cons_of_mem _ hm) ab h1
      · have hab2 : ab = (kv.1, some kv.2) := by simpa using h1
        subst hab2
        show kv.1 ≠ kv'.1
        intro hcontra
        apply hnd'.1
        rw [hcontra]
        exact List.mem_map_of_mem (fun p : String × String => p.1) hm

lemma filterMap_some_pairs (s : List (String × String)) :
    (s.map (fun kv : String × String => (kv.1, some kv.2))).filterMap
      (fun kv => kv.2.map (fun v => (kv.1, v))) = s := by
  induction s with
  | nil => rfl
  | cons a t ih => simp [ih]

/-- Claim C8 (amended): EnvBlockCodec round-trip.  decode(encode(s)) = s
for every secret set whose keys are non-empty, unique, free of '=' and
newline and not beginning with '#', and whose values contain no newline
(the modelled line grammar forces these restrictions; the original claim
admitted arbitrary string values). -/
theorem claim_C8_roundtrip (s : List (String × String))
    (hk : ∀ kv ∈ s, env_key_ok kv.1)
    (hv : ∀ kv ∈ s, '\n' ∉ kv.2.data)
    (hnd : (s.map (fun kv : String × String => kv.1)).Nodup) :
    decode (encode s) = .ok s := by
  have hsplit := splitOnChar_encodeChars s
    (fun kv hm => ⟨(hk kv hm).2.2.1, hv kv hm⟩)
  have hfold := dotenv_fold_append s [] hk hnd
    (by intro kv hm ab hab; simp at hab)
  unfold decode dotenv_values_model encode
  rw [show (String.mk (encodeChars s)).data = encodeChars s from rfl, hsplit, hfold]
  simp only [List.nil_append]
  have hnull : keys_with_null_values
      (s.map (fun kv : String × String => (kv.1, some kv.2))) = [] := by
    rw [keys_with_null_values, List.map_eq_nil_iff, List.filter_eq_nil_iff]
    intro kv hkv
    have : ∃ p ∈ s, (p.1, some p.2) = kv := by simpa using hkv
    obtain ⟨p, -, hp⟩ := this
    rw [← hp]
    simp
  rw [get_secrets_from_envs, hnull]
  rw [if_neg (by simp)]
  rw [filterMap_some_pairs]

/-- Claim C8 counterexample: the secret set with the single entry KEY
mapped to a value containing a newline is valid in the spec's sense
(non-empty unique keys, plain string values), yet decoding its encoding
fails with a parse error instead of returning the set. -/
theorem claim_C8_counterexample :
    spec_valid_secret_set [("KEY", "a\nb")]
  ∧ decode (encode [("KEY", "a\nb")]) ≠ .ok [("KEY", "a\nb")] := by
  constructor
  · decide
  · intro h
    rw [show decode (encode [("KEY", "a\nb")]) =
      .error (parse_error_message ["b"]) from rfl] at h
    exact Except.noConfusion h

/-- Claim C8 witness: the amended round-trip instantiated on a concrete
two-entry set, one value empty. -/
theorem claim_C8_witness :
    decode (encode [("A", "1"), ("B", "")]) = .ok [("A", "1"), ("B", "")] :=
  claim_C8_roundtrip [("A", "1"), ("B", "")] (by decide) (by decide) (by decide)
